import Mathlib

/-
Verification of the media-organizer (sonex.py): a shallow embedding of its
classification, date-resolution, companion-pairing and conversion logic,
together with theorems settling the specified properties.

External calls (ffmpeg.probe, datetime.strptime, os.path.getctime, directory
listings used by glob, and the ffmpeg encode invocations) are modelled as an
explicit environment `Env`; the filesystem state touched by the run (existing
paths) is a list of path strings threaded through the loop.
-/

namespace Sonex

/-- Calendar date, the payload of strftime formatting with month-day-year fields. -/
structure Date where
  month : Nat
  day : Nat
  year : Nat
deriving DecidableEq

/-- Zero-pad a numeric field to two digits, as strftime does for %m and %d. -/
def pad2 (n : Nat) : String :=
  if n < 10 then "0" ++ toString n else toString n

/-- Zero-pad a numeric field to four digits, as strftime does for %Y. -/
def pad4 (n : Nat) : String :=
  if n < 10 then "000" ++ toString n
  else if n < 100 then "00" ++ toString n
  else if n < 1000 then "0" ++ toString n
  else toString n

/-- strftime with format string %m-%d-%Y, the only output format the program uses. -/
def formatDate (d : Date) : String :=
  pad2 d.month ++ "-" ++ pad2 d.day ++ "-" ++ pad4 d.year

/-- Python str.lower restricted to the per-character ASCII case mapping. -/
def pyLower (s : String) : String :=
  ⟨s.data.map Char.toLower⟩

/-- Python str.endswith with a single suffix argument. -/
def pyEndsWith (s suf : String) : Bool :=
  suf.data.isSuffixOf s.data

/-- Python str.startswith with a single argument. -/
def pyStartsWith (s t : String) : Bool :=
  t.data.isPrefixOf s.data

/-- Python str.endswith with a tuple argument: true when some listed suffix matches. -/
def pyEndsWithAny (s : String) (sufs : List String) : Bool :=
  sufs.any (pyEndsWith s)

/-- One replacement pass of Python str.replace for a nonempty pattern, with
explicit fuel (the scan consumes at least one character per step, so fuel equal
to the length of the scanned text suffices). -/
def pyReplaceFuel (pat rep : List Char) : Nat → List Char → List Char
  | 0, l => l
  | _ + 1, [] => []
  | fuel + 1, c :: rest =>
    if pat.isPrefixOf (c :: rest) then
      rep ++ pyReplaceFuel pat rep fuel ((c :: rest).drop pat.length)
    else
      c :: pyReplaceFuel pat rep fuel rest

/-- Python str.replace: replace every non-overlapping occurrence of `pat`,
scanning left to right (used with the nonempty pattern ".CPI"). -/
def pyReplace (s pat rep : String) : String :=
  ⟨pyReplaceFuel pat.data rep.data s.data.length s.data⟩

/-- os.path.basename: the component after the last slash. -/
def basename (p : String) : String :=
  ⟨(p.data.reverse.takeWhile (· ≠ '/')).reverse⟩

/-- os.path.dirname (posix): everything up to the last slash, with trailing
slashes stripped unless the head is entirely slashes. -/
def dirname (p : String) : String :=
  let head := (p.data.reverse.dropWhile (· ≠ '/')).reverse
  if head.isEmpty then ""
  else if head.all (· = '/') then ⟨head⟩
  else ⟨(head.reverse.dropWhile (· = '/')).reverse⟩

/-- os.path.join (posix) for one extra component. -/
def joinPath (a b : String) : String :=
  if pyStartsWith b "/" then b
  else if a = "" || pyEndsWith a "/" then a ++ b
  else a ++ "/" ++ b

/-- Stem of os.path.splitext applied to a file name: drop the extension that
starts at the last dot, unless every character before that dot is a dot. -/
def splitextStem (name : String) : String :=
  let l := name.data
  if l.contains '.' then
    let afterRev := l.reverse.takeWhile (· ≠ '.')
    let stem := l.take (l.length - afterRev.length - 1)
    if stem.all (· = '.') then name else ⟨stem⟩
  else name

/-- One stream dictionary inside an ffmpeg.probe result: it may or may not
carry a 'tags' sub-dictionary. -/
structure MediaStream where
  tags : Option (List (String × String))
deriving DecidableEq

/-- Reading stream['tags']['creation_time'] when both keys are present. -/
def MediaStream.creationTime (s : MediaStream) : Option String :=
  match s.tags with
  | none => none
  | some ts => ts.lookup "creation_time"

/-- Environment of external calls: ffmpeg.probe results, strptime with the
fixed format %Y-%m-%dT%H:%M:%S.%fZ (none when it raises ValueError), the
filesystem creation time as a calendar date, directory listings in scandir
order as consumed by glob, and whether each ffmpeg encode invocation succeeds. -/
structure Env where
  probe : String → Except Unit (List MediaStream)
  parse : String → Option Date
  ctime : String → Date
  listing : String → List String
  encodeImgOk : String → String → Bool
  encodeVidOk : String → String → Bool

/-- The probe loop of get_creation_date: the creation_time tag of the first
stream that carries one. -/
def firstCreationTime : List MediaStream → Option String
  | [] => none
  | s :: rest =>
    match s.creationTime with
    | some t => some t
    | none => firstCreationTime rest

/-- get_creation_date: try ffmpeg.probe and return the strptime-parsed
creation_time of the first tagged stream, formatted %m-%d-%Y; any failure
(probe error, no tagged stream, unparseable tag) falls back to the filesystem
creation time, formatted the same way. -/
def get_creation_date (env : Env) (file_path : String) : String :=
  let viaProbe : Option String :=
    match env.probe file_path with
    | .error _ => none
    | .ok streams =>
      match firstCreationTime streams with
      | none => none
      | some t =>
        match env.parse t with
        | none => none
        | some d => some (formatDate d)
  match viaProbe with
  | some s => s
  | none => formatDate (env.ctime file_path)

/-- fnmatch test of a directory entry against the glob pattern
clipName ++ "*.MTS", including glob's rule that entries starting with a dot
are matched only by patterns starting with a dot. -/
def globMatchMTS (clipName name : String) : Bool :=
  (pyStartsWith clipName "." || !(pyStartsWith name ".")) &&
  pyStartsWith name clipName &&
  pyEndsWith ⟨name.data.drop clipName.data.length⟩ ".MTS"

/-- find_associated_video: strip '.CPI' occurrences from the basename, glob
the parent-of-parent directory for clip_name*.MTS, and take the first result
in listing order (glob returns dir-joined paths in scandir order). -/
def find_associated_video (env : Env) (cpi_file : String) : Option String :=
  let clip_name := pyReplace (basename cpi_file) ".CPI" ""
  let clip_dir := dirname (dirname cpi_file)
  let video_files := ((env.listing clip_dir).filter (globMatchMTS clip_name)).map (joinPath clip_dir)
  video_files.head?

/-- Filesystem state of the run: the set of existing paths, as a list. -/
abbrev FS := List String

/-- os.makedirs with exist_ok=True: ensure the directory path exists. -/
def makedirs (fs : FS) (d : String) : FS :=
  if d ∈ fs then fs else d :: fs

/-- convert_image_to_jpg: skip when the output exists, otherwise run the mjpeg
encode, which on success creates the output file and returns True, and on a
raised error is caught, printed, and returns False. -/
def convert_image_to_jpg (env : Env) (fs : FS) (input_file output_file : String) : Bool × FS :=
  if output_file ∈ fs then (false, fs)
  else if env.encodeImgOk input_file output_file then (true, output_file :: fs)
  else (false, fs)

/-- convert_to_m2ts: skip when the output exists, otherwise run the mpegts
stream-copy, which on success creates the output file and returns True, and on
a raised error is caught, printed, and returns False. -/
def convert_to_m2ts (env : Env) (fs : FS) (input_file output_file : String) : Bool × FS :=
  if output_file ∈ fs then (false, fs)
  else if env.encodeVidOk input_file output_file then (true, output_file :: fs)
  else (false, fs)

/-- The processed and skipped counters of process_media_files. -/
structure Counters where
  processed : Nat
  skipped : Nat
deriving DecidableEq

/-- The category the classifier assigns to a path. -/
inductive Category
  | StillImage
  | VideoClip
  | VideoIndex
  | Unrecognized
deriving DecidableEq

/-- The image-extension tuple of the classifier. -/
def imageExts : List String :=
  [".jpg", ".jpeg", ".png", ".bmp", ".tiff"]

/-- File classification, read off the branch structure of process_media_files:
lowercased-path suffix match against the image tuple, then against
('.mts', '.cpi') with '.cpi' separated inside that branch. -/
def classify (file_path : String) : Category :=
  if pyEndsWithAny (pyLower file_path) imageExts then .StillImage
  else if pyEndsWith (pyLower file_path) ".mts" || pyEndsWith (pyLower file_path) ".cpi" then
    if pyEndsWith (pyLower file_path) ".cpi" then .VideoIndex else .VideoClip
  else .Unrecognized

/-- The destination subfolder of a file: destination_root joined with the
resolved date string (lines 98 and 99 of the loop body). -/
def destinationDir (env : Env) (destination_root file_path : String) : String :=
  joinPath destination_root (get_creation_date env file_path)

/-- Bookkeeping of one conversion attempt: the new filesystem, and processed
incremented when the conversion returned True, skipped when it returned False. -/
def tally (c : Counters) (r : Bool × FS) : FS × Counters :=
  (r.2, if r.1 then { c with processed := c.processed + 1 } else { c with skipped := c.skipped + 1 })

/-- One iteration of the loop of process_media_files on one enumerated file:
resolve the date, make the date directory, then classify and convert. -/
def stepFile (env : Env) (destination_root : String) (st : FS × Counters) (file_path : String) :
    FS × Counters :=
  let fs0 := st.1
  let c := st.2
  let date_str := get_creation_date env file_path
  let destination_dir := joinPath destination_root date_str
  let fs1 := makedirs fs0 destination_dir
  if pyEndsWithAny (pyLower file_path) imageExts then
    let output_filename := splitextStem (basename file_path) ++ ".jpg"
    let output_path := joinPath destination_dir output_filename
    tally c (convert_image_to_jpg env fs1 file_path output_path)
  else if pyEndsWith (pyLower file_path) ".mts" || pyEndsWith (pyLower file_path) ".cpi" then
    let output_filename := splitextStem (basename file_path) ++ ".m2ts"
    let output_path := joinPath destination_dir output_filename
    if pyEndsWith (pyLower file_path) ".cpi" then
      match find_associated_video env file_path with
      | some video_file => tally c (convert_to_m2ts env fs1 video_file output_path)
      | none => (fs1, c)
    else
      tally c (convert_to_m2ts env fs1 file_path output_path)
  else (fs1, c)

/-- process_media_files: fold the loop body over the enumerated files with both
counters starting at zero. -/
def process_media_files (env : Env) (destination_root : String) (files : List String) (fs : FS) :
    FS × Counters :=
  files.foldl (stepFile env destination_root) (fs, ⟨0, 0⟩)

/-- The output path a file's conversion job would be checked against and
written to, when the file yields a job at all (unrecognized files and index
files with no paired clip yield none). -/
def jobOutput (env : Env) (destination_root file_path : String) : Option String :=
  match classify file_path with
  | .StillImage =>
    some (joinPath (destinationDir env destination_root file_path)
      (splitextStem (basename file_path) ++ ".jpg"))
  | .VideoClip =>
    some (joinPath (destinationDir env destination_root file_path)
      (splitextStem (basename file_path) ++ ".m2ts"))
  | .VideoIndex =>
    match find_associated_video env file_path with
    | some _ =>
      some (joinPath (destinationDir env destination_root file_path)
        (splitextStem (basename file_path) ++ ".m2ts"))
    | none => none
  | .Unrecognized => none

/-- Number of enumerated files that yield a conversion job. -/
def countJobs (env : Env) (destination_root : String) (files : List String) : Nat :=
  (files.filter (fun f => (jobOutput env destination_root f).isSome)).length

/-- A stream whose creation_time tag does not parse in the expected format. -/
def exStreamBad : MediaStream := ⟨some [("creation_time", "bad")]⟩

/-- A stream whose creation_time tag parses. -/
def exStreamGood : MediaStream := ⟨some [("creation_time", "good")]⟩

/-- Concrete environment for date-resolution tests: probing "f" yields a
malformed first tag followed by a parseable one, probing "g" yields one
parseable tag, probing anything else raises; the parseable tag denotes
2023-05-01 and the filesystem creation time is 2022-01-10. -/
def exEnvDate : Env where
  probe := fun p =>
    if p = "f" then .ok [exStreamBad, exStreamGood]
    else if p = "g" then .ok [exStreamGood]
    else .error ()
  parse := fun t => if t = "good" then some ⟨5, 1, 2023⟩ else none
  ctime := fun _ => ⟨1, 10, 2022⟩
  listing := fun _ => []
  encodeImgOk := fun _ _ => true
  encodeVidOk := fun _ _ => true

/-- Concrete environment for companion pairing: the directory "AVCHD" holds
exactly one clip, named in lower case except for its .MTS extension. -/
def exEnvPair : Env where
  probe := fun _ => .error ()
  parse := fun _ => none
  ctime := fun _ => ⟨1, 1, 2000⟩
  listing := fun d => if d = "AVCHD" then ["clip001.MTS"] else []
  encodeImgOk := fun _ _ => true
  encodeVidOk := fun _ _ => true

/-- Concrete environment for companion pairing with an upper-case index file:
the directory "AVCHD" lists a non-matching entry first, then two clips whose
names start with CLIP001. -/
def exEnvPairUp : Env where
  probe := fun _ => .error ()
  parse := fun _ => none
  ctime := fun _ => ⟨1, 1, 2000⟩
  listing := fun d => if d = "AVCHD" then ["notes.txt", "CLIP001.MTS", "CLIP001A.MTS"] else []
  encodeImgOk := fun _ _ => true
  encodeVidOk := fun _ _ => true

/-- Concrete environment for companion pairing whose directory listing is not
in lexicographic order: both entries match the pattern CLIP001*.MTS. -/
def exEnvPairOrd : Env where
  probe := fun _ => .error ()
  parse := fun _ => none
  ctime := fun _ => ⟨1, 1, 2000⟩
  listing := fun d => if d = "AVCHD" then ["CLIP001B.MTS", "CLIP001A.MTS"] else []
  encodeImgOk := fun _ _ => true
  encodeVidOk := fun _ _ => true

/-- Concrete environment where probing always raises, every encode succeeds,
and every file's filesystem creation time is 2021-07-03. -/
def exEnvPlain : Env where
  probe := fun _ => .error ()
  parse := fun _ => none
  ctime := fun _ => ⟨7, 3, 2021⟩
  listing := fun _ => []
  encodeImgOk := fun _ _ => true
  encodeVidOk := fun _ _ => true

/-- Concrete environment where probing always raises and every encode fails,
with a pairable clip for "cam/CLIPINF/CLIP001.CPI" listed under "cam". -/
def exEnvFail : Env where
  probe := fun _ => .error ()
  parse := fun _ => none
  ctime := fun _ => ⟨7, 3, 2021⟩
  listing := fun d => if d = "cam" then ["CLIP001.MTS"] else []
  encodeImgOk := fun _ _ => false
  encodeVidOk := fun _ _ => false

theorem pyEndsWith_suffix {s suf : String} (h : pyEndsWith s suf = true) :
    suf.data <:+ s.data := by
  simpa [pyEndsWith] using h

theorem pyEndsWith_false_of {s a b : String} (h : pyEndsWith s a = true)
    (hd : ¬ (b.data <:+ a.data ∨ a.data <:+ b.data)) : pyEndsWith s b = false := by
  cases hb : pyEndsWith s b with
  | false => rfl
  | true =>
    exact absurd (List.suffix_or_suffix_of_suffix (pyEndsWith_suffix hb) (pyEndsWith_suffix h)) hd

theorem anyImage_iff (s : String) :
    pyEndsWithAny s imageExts = true ↔
      (pyEndsWith s ".jpg" = true ∨ pyEndsWith s ".jpeg" = true ∨ pyEndsWith s ".png" = true ∨
       pyEndsWith s ".bmp" = true ∨ pyEndsWith s ".tiff" = true) := by
  simp [pyEndsWithAny, imageExts]

theorem mts_not_image {s : String} (h : pyEndsWith s ".mts" = true) :
    pyEndsWithAny s imageExts = false := by
  cases ha : pyEndsWithAny s imageExts with
  | false => rfl
  | true =>
    rcases (anyImage_iff s).mp ha with h1 | h1 | h1 | h1 | h1 <;>
      exact absurd (List.suffix_or_suffix_of_suffix (pyEndsWith_suffix h1) (pyEndsWith_suffix h))
        (by decide)

theorem cpi_not_image {s : String} (h : pyEndsWith s ".cpi" = true) :
    pyEndsWithAny s imageExts = false := by
  cases ha : pyEndsWithAny s imageExts with
  | false => rfl
  | true =>
    rcases (anyImage_iff s).mp ha with h1 | h1 | h1 | h1 | h1 <;>
      exact absurd (List.suffix_or_suffix_of_suffix (pyEndsWith_suffix h1) (pyEndsWith_suffix h))
        (by decide)

theorem mts_not_cpi {s : String} (h : pyEndsWith s ".mts" = true) :
    pyEndsWith s ".cpi" = false :=
  pyEndsWith_false_of h (by decide)

theorem classify_of_image {p : String} (h : pyEndsWithAny (pyLower p) imageExts = true) :
    classify p = .StillImage := by
  simp [classify, h]

theorem classify_of_mts {p : String} (h : pyEndsWith (pyLower p) ".mts" = true) :
    classify p = .VideoClip := by
  simp [classify, mts_not_image h, h, mts_not_cpi h]

theorem classify_of_cpi {p : String} (h : pyEndsWith (pyLower p) ".cpi" = true) :
    classify p = .VideoIndex := by
  simp [classify, cpi_not_image h, h]

theorem classify_of_none {p : String} (h1 : pyEndsWithAny (pyLower p) imageExts = false)
    (h2 : pyEndsWith (pyLower p) ".mts" = false) (h3 : pyEndsWith (pyLower p) ".cpi" = false) :
    classify p = .Unrecognized := by
  simp [classify, h1, h2, h3]

theorem stepFile_image_eq (env : Env) (root : String) (fs : FS) (c : Counters) (p : String)
    (h : pyEndsWithAny (pyLower p) imageExts = true) :
    stepFile env root (fs, c) p =
      tally c (convert_image_to_jpg env (makedirs fs (destinationDir env root p)) p
        (joinPath (destinationDir env root p) (splitextStem (basename p) ++ ".jpg"))) := by
  simp [stepFile, destinationDir, h]

theorem stepFile_clip_eq (env : Env) (root : String) (fs : FS) (c : Counters) (p : String)
    (h : pyEndsWith (pyLower p) ".mts" = true) :
    stepFile env root (fs, c) p =
      tally c (convert_to_m2ts env (makedirs fs (destinationDir env root p)) p
        (joinPath (destinationDir env root p) (splitextStem (basename p) ++ ".m2ts"))) := by
  simp [stepFile, destinationDir, mts_not_image h, h, mts_not_cpi h]

theorem stepFile_index_some_eq (env : Env) (root : String) (fs : FS) (c : Counters)
    (p video_file : String) (h : pyEndsWith (pyLower p) ".cpi" = true)
    (hv : find_associated_video env p = some video_file) :
    stepFile env root (fs, c) p =
      tally c (convert_to_m2ts env (makedirs fs (destinationDir env root p)) video_file
        (joinPath (destinationDir env root p) (splitextStem (basename p) ++ ".m2ts"))) := by
  simp [stepFile, destinationDir, cpi_not_image h, h, hv]

theorem stepFile_index_none_eq (env : Env) (root : String) (fs : FS) (c : Counters) (p : String)
    (h : pyEndsWith (pyLower p) ".cpi" = true)
    (hv : find_associated_video env p = none) :
    stepFile env root (fs, c) p = (makedirs fs (destinationDir env root p), c) := by
  simp [stepFile, destinationDir, cpi_not_image h, h, hv]

theorem stepFile_none_eq (env : Env) (root : String) (fs : FS) (c : Counters) (p : String)
    (h1 : pyEndsWithAny (pyLower p) imageExts = false)
    (h2 : pyEndsWith (pyLower p) ".mts" = false) (h3 : pyEndsWith (pyLower p) ".cpi" = false) :
    stepFile env root (fs, c) p = (makedirs fs (destinationDir env root p), c) := by
  simp [stepFile, destinationDir, h1, h2, h3]

theorem makedirs_of_mem {fs : FS} {d : String} (h : d ∈ fs) : makedirs fs d = fs := by
  simp [makedirs, h]

theorem mem_makedirs_self (fs : FS) (d : String) : d ∈ makedirs fs d := by
  unfold makedirs
  split
  · assumption
  · exact List.mem_cons_self d fs

theorem mem_makedirs_of_mem {fs : FS} {x : String} (h : x ∈ fs) (d : String) :
    x ∈ makedirs fs d := by
  unfold makedirs
  split
  · exact h
  · exact List.mem_cons_of_mem d h

theorem convert_img_of_mem (env : Env) (fs : FS) (i o : String) (h : o ∈ fs) :
    convert_image_to_jpg env fs i o = (false, fs) := by
  simp [convert_image_to_jpg, h]

theorem convert_vid_of_mem (env : Env) (fs : FS) (i o : String) (h : o ∈ fs) :
    convert_to_m2ts env fs i o = (false, fs) := by
  simp [convert_to_m2ts, h]

theorem convert_img_fail (env : Env) (fs : FS) (i o : String) (h : o ∉ fs)
    (he : env.encodeImgOk i o = false) : convert_image_to_jpg env fs i o = (false, fs) := by
  simp [convert_image_to_jpg, h, he]

theorem convert_vid_fail (env : Env) (fs : FS) (i o : String) (h : o ∉ fs)
    (he : env.encodeVidOk i o = false) : convert_to_m2ts env fs i o = (false, fs) := by
  simp [convert_to_m2ts, h, he]

theorem mem_convert_img {env : Env} {fs : FS} {i o x : String} (h : x ∈ fs) :
    x ∈ (convert_image_to_jpg env fs i o).2 := by
  unfold convert_image_to_jpg
  split
  · exact h
  · split
    · exact List.mem_cons_of_mem o h
    · exact h

theorem mem_convert_vid {env : Env} {fs : FS} {i o x : String} (h : x ∈ fs) :
    x ∈ (convert_to_m2ts env fs i o).2 := by
  unfold convert_to_m2ts
  split
  · exact h
  · split
    · exact List.mem_cons_of_mem o h
    · exact h

theorem get_creation_date_of_parse {env : Env} {p t : String} {streams : List MediaStream}
    {d : Date} (hp : env.probe p = .ok streams) (ht : firstCreationTime streams = some t)
    (hd : env.parse t = some d) : get_creation_date env p = formatDate d := by
  simp [get_creation_date, hp, ht, hd]

theorem get_creation_date_of_probe_error {env : Env} {p : String} {e : Unit}
    (hp : env.probe p = .error e) : get_creation_date env p = formatDate (env.ctime p) := by
  simp [get_creation_date, hp]

theorem get_creation_date_of_no_tag {env : Env} {p : String} {streams : List MediaStream}
    (hp : env.probe p = .ok streams) (ht : firstCreationTime streams = none) :
    get_creation_date env p = formatDate (env.ctime p) := by
  simp [get_creation_date, hp, ht]

theorem get_creation_date_of_bad_tag {env : Env} {p t : String} {streams : List MediaStream}
    (hp : env.probe p = .ok streams) (ht : firstCreationTime streams = some t)
    (hd : env.parse t = none) : get_creation_date env p = formatDate (env.ctime p) := by
  simp [get_creation_date, hp, ht, hd]

theorem cpi_of_classify_index {p : String} (h : classify p = .VideoIndex) :
    pyEndsWith (pyLower p) ".cpi" = true := by
  cases h3 : pyEndsWith (pyLower p) ".cpi" with
  | true => rfl
  | false =>
    cases h1 : pyEndsWithAny (pyLower p) imageExts with
    | true => rw [classify_of_image h1] at h; exact Category.noConfusion h
    | false =>
      cases h2 : pyEndsWith (pyLower p) ".mts" with
      | true => rw [classify_of_mts h2] at h; exact Category.noConfusion h
      | false => rw [classify_of_none h1 h2 h3] at h; exact Category.noConfusion h

theorem conds_of_classify_unrec {p : String} (h : classify p = .Unrecognized) :
    pyEndsWithAny (pyLower p) imageExts = false ∧ pyEndsWith (pyLower p) ".mts" = false ∧
      pyEndsWith (pyLower p) ".cpi" = false := by
  cases h1 : pyEndsWithAny (pyLower p) imageExts with
  | true => rw [classify_of_image h1] at h; exact Category.noConfusion h
  | false =>
    cases h2 : pyEndsWith (pyLower p) ".mts" with
    | true => rw [classify_of_mts h2] at h; exact Category.noConfusion h
    | false =>
      cases h3 : pyEndsWith (pyLower p) ".cpi" with
      | true => rw [classify_of_cpi h3] at h; exact Category.noConfusion h
      | false => exact ⟨rfl, rfl, rfl⟩

/-- C1: classification is determined purely by a case-insensitive extension
match: paths ending in .jpg, .jpeg, .png, .bmp or .tiff are StillImage, paths
ending in .mts are VideoClip, paths ending in .cpi are VideoIndex, and every
other path is Unrecognized and is silently skipped by the loop: no output is
produced and no counter changes (only the date directory is ensured). -/
theorem classification_by_extension (p : String) :
    ((pyEndsWith (pyLower p) ".jpg" = true ∨ pyEndsWith (pyLower p) ".jpeg" = true ∨
      pyEndsWith (pyLower p) ".png" = true ∨ pyEndsWith (pyLower p) ".bmp" = true ∨
      pyEndsWith (pyLower p) ".tiff" = true) → classify p = .StillImage) ∧
    (pyEndsWith (pyLower p) ".mts" = true → classify p = .VideoClip) ∧
    (pyEndsWith (pyLower p) ".cpi" = true → classify p = .VideoIndex) ∧
    (pyEndsWith (pyLower p) ".jpg" = false → pyEndsWith (pyLower p) ".jpeg" = false →
     pyEndsWith (pyLower p) ".png" = false → pyEndsWith (pyLower p) ".bmp" = false →
     pyEndsWith (pyLower p) ".tiff" = false → pyEndsWith (pyLower p) ".mts" = false →
     pyEndsWith (pyLower p) ".cpi" = false →
      classify p = .Unrecognized ∧
        ∀ (env : Env) (root : String) (fs : FS) (c : Counters),
          stepFile env root (fs, c) p = (makedirs fs (destinationDir env root p), c)) := by
  refine ⟨fun h => classify_of_image ((anyImage_iff _).mpr h), classify_of_mts,
    classify_of_cpi, ?_⟩
  intro h1 h2 h3 h4 h5 h6 h7
  have himg : pyEndsWithAny (pyLower p) imageExts = false := by
    cases ha : pyEndsWithAny (pyLower p) imageExts with
    | false => rfl
    | true => rcases (anyImage_iff _).mp ha with h | h | h | h | h <;> simp_all
  exact ⟨classify_of_none himg h6 h7,
    fun env root fs c => stepFile_none_eq env root fs c p himg h6 h7⟩

/-- Witness for C1 at concrete paths of each category. -/
theorem classification_by_extension_witness :
    classify "DCIM/IMG001.JPG" = .StillImage ∧
    classify "AVCHD/STREAM/00000.MTS" = .VideoClip ∧
    classify "AVCHD/CLIPINF/00000.CPI" = .VideoIndex ∧
    classify "cam/readme.txt" = .Unrecognized ∧
    stepFile exEnvPlain "dest" ([], ⟨0, 0⟩) "cam/readme.txt" =
      (makedirs [] (destinationDir exEnvPlain "dest" "cam/readme.txt"), ⟨0, 0⟩) := by
  refine ⟨(classification_by_extension "DCIM/IMG001.JPG").1 (Or.inl (by decide)),
    (classification_by_extension "AVCHD/STREAM/00000.MTS").2.1 (by decide),
    (classification_by_extension "AVCHD/CLIPINF/00000.CPI").2.2.1 (by decide), ?_, ?_⟩
  · exact ((classification_by_extension "cam/readme.txt").2.2.2 (by decide) (by decide)
      (by decide) (by decide) (by decide) (by decide) (by decide)).1
  · exact ((classification_by_extension "cam/readme.txt").2.2.2 (by decide) (by decide)
      (by decide) (by decide) (by decide) (by decide) (by decide)).2 exEnvPlain "dest" [] ⟨0, 0⟩

/-- C2 is refuted as stated: probing "f" yields a stream (the second) whose
creation_time tag parses to 2023-05-01, yet the resolved folder name is the
filesystem fallback 01-10-2022 and not 05-01-2023, because the loop returns on
the first tagged stream and its malformed tag aborts the whole try block. -/
theorem creation_date_parseable_tag_cex :
    exEnvDate.probe "f" = .ok [exStreamBad, exStreamGood] ∧
    exStreamGood.creationTime = some "good" ∧
    exEnvDate.parse "good" = some ⟨5, 1, 2023⟩ ∧
    formatDate ⟨5, 1, 2023⟩ = "05-01-2023" ∧
    get_creation_date exEnvDate "f" = "01-10-2022" ∧
    get_creation_date exEnvDate "f" ≠ formatDate ⟨5, 1, 2023⟩ ∧
    get_creation_date exEnvDate "f" = formatDate (exEnvDate.ctime "f") :=
  ⟨rfl, rfl, rfl, by decide, by decide, by decide, by decide⟩

/-- C2 (amended): the folder name is resolved from the creation_time tag of
the FIRST stream that carries one: if that tag parses, the folder name is that
timestamp's date formatted MM-DD-YYYY, independent of the filesystem
timestamps; otherwise (probe error, no tagged stream, or unparseable first
tag) the folder name is the filesystem creation time formatted MM-DD-YYYY. -/
theorem creation_date_resolution (env : Env) (p : String) :
    (∀ (streams : List MediaStream) (t : String) (d : Date),
        env.probe p = .ok streams → firstCreationTime streams = some t →
        env.parse t = some d → get_creation_date env p = formatDate d) ∧
    (∀ e, env.probe p = .error e → get_creation_date env p = formatDate (env.ctime p)) ∧
    (∀ streams, env.probe p = .ok streams → firstCreationTime streams = none →
        get_creation_date env p = formatDate (env.ctime p)) ∧
    (∀ streams t, env.probe p = .ok streams → firstCreationTime streams = some t →
        env.parse t = none → get_creation_date env p = formatDate (env.ctime p)) :=
  ⟨fun _ _ _ hp ht hd => get_creation_date_of_parse hp ht hd,
   fun _ hp => get_creation_date_of_probe_error hp,
   fun _ hp ht => get_creation_date_of_no_tag hp ht,
   fun _ _ hp ht hd => get_creation_date_of_bad_tag hp ht hd⟩

/-- Witness for C2 (amended): a parseable first tag wins over the filesystem
time, and a probe error falls back to it. -/
theorem creation_date_resolution_witness :
    get_creation_date exEnvDate "g" = formatDate ⟨5, 1, 2023⟩ ∧
    get_creation_date exEnvDate "q" = formatDate (exEnvDate.ctime "q") :=
  ⟨(creation_date_resolution exEnvDate "g").1 [exStreamGood] "good" ⟨5, 1, 2023⟩ rfl rfl rfl,
   (creation_date_resolution exEnvDate "q").2.1 () rfl⟩

/-- C5: an index file whose pairer finds no associated video is dropped
entirely: the loop body only ensures the date directory and leaves both
counters unchanged, producing no output file. -/
theorem index_without_video_dropped (env : Env) (root : String) (fs : FS) (c : Counters)
    (p : String) (hidx : classify p = .VideoIndex)
    (hnone : find_associated_video env p = none) :
    stepFile env root (fs, c) p = (makedirs fs (destinationDir env root p), c) :=
  stepFile_index_none_eq env root fs c p (cpi_of_classify_index hidx) hnone

/-- Witness for C5: an index file with an empty parent-of-parent listing. -/
theorem index_without_video_dropped_witness :
    stepFile exEnvPair "dest" ([], ⟨0, 0⟩) "x/y/NOPE.CPI" =
      (makedirs [] (destinationDir exEnvPair "dest" "x/y/NOPE.CPI"), ⟨0, 0⟩) :=
  index_without_video_dropped exEnvPair "dest" [] ⟨0, 0⟩ "x/y/NOPE.CPI" (by decide) (by decide)

/-- C6: the date resolver never raises past its boundary: it always returns a
formatted date string, and on any probing failure (probe error, missing tag,
unparseable tag) it returns the filesystem-timestamp fallback. -/
theorem date_resolver_total (env : Env) (p : String) :
    (∃ d : Date, get_creation_date env p = formatDate d) ∧
    (((∃ e, env.probe p = .error e) ∨
      (∃ streams, env.probe p = .ok streams ∧ firstCreationTime streams = none) ∨
      (∃ streams t, env.probe p = .ok streams ∧ firstCreationTime streams = some t ∧
        env.parse t = none)) →
      get_creation_date env p = formatDate (env.ctime p)) := by
  constructor
  · cases hp : env.probe p with
    | error e => exact ⟨env.ctime p, get_creation_date_of_probe_error hp⟩
    | ok streams =>
      cases ht : firstCreationTime streams with
      | none => exact ⟨env.ctime p, get_creation_date_of_no_tag hp ht⟩
      | some t =>
        cases hd : env.parse t with
        | none => exact ⟨env.ctime p, get_creation_date_of_bad_tag hp ht hd⟩
        | some d => exact ⟨d, get_creation_date_of_parse hp ht hd⟩
  · rintro (⟨e, hp⟩ | ⟨streams, hp, ht⟩ | ⟨streams, t, hp, ht, hd⟩)
    · exact get_creation_date_of_probe_error hp
    · exact get_creation_date_of_no_tag hp ht
    · exact get_creation_date_of_bad_tag hp ht hd

/-- Witness for C6: a probing failure yields the fallback date string. -/
theorem date_resolver_total_witness :
    (∃ d : Date, get_creation_date exEnvPlain "cam/a.xyz" = formatDate d) ∧
    get_creation_date exEnvPlain "cam/a.xyz" = formatDate (exEnvPlain.ctime "cam/a.xyz") :=
  ⟨(date_resolver_total exEnvPlain "cam/a.xyz").1,
   (date_resolver_total exEnvPlain "cam/a.xyz").2 (Or.inl ⟨(), rfl⟩)⟩

/-- C8: the destination subfolder is fully determined by the destination root
and the resolved date string: any two files (even under different
environments) whose resolved dates agree get the same destination directory. -/
theorem destination_dir_determined_by_date (env env2 : Env) (root p q : String)
    (h : get_creation_date env p = get_creation_date env2 q) :
    destinationDir env root p = destinationDir env2 root q := by
  simp [destinationDir, h]

/-- Witness for C8: two files in different source subtrees share a folder. -/
theorem destination_dir_determined_by_date_witness :
    destinationDir exEnvPlain "dest" "cam/x/a.jpg" = destinationDir exEnvPlain "dest" "cam/y/b.png" :=
  destination_dir_determined_by_date exEnvPlain exEnvPlain "dest" "cam/x/a.jpg" "cam/y/b.png" rfl

/-- C10: for a successfully paired index file the output path is derived
entirely from the index file itself: the date folder comes from the date
resolved on the index file and the basename is the index file's stem plus
.m2ts; the paired clip enters only as the conversion input. -/
theorem index_output_path_from_index_file (env : Env) (root : String) (fs : FS) (c : Counters)
    (p video_file : String) (hidx : classify p = .VideoIndex)
    (hv : find_associated_video env p = some video_file) :
    stepFile env root (fs, c) p =
      tally c (convert_to_m2ts env (makedirs fs (destinationDir env root p)) video_file
        (joinPath (destinationDir env root p) (splitextStem (basename p) ++ ".m2ts"))) :=
  stepFile_index_some_eq env root fs c p video_file (cpi_of_classify_index hidx) hv

/-- Witness for C10: a concrete paired index file. -/
theorem index_output_path_from_index_file_witness :
    stepFile exEnvPairUp "dest" ([], ⟨0, 0⟩) "AVCHD/CLIPINF/CLIP001.CPI" =
      tally ⟨0, 0⟩ (convert_to_m2ts exEnvPairUp
        (makedirs [] (destinationDir exEnvPairUp "dest" "AVCHD/CLIPINF/CLIP001.CPI"))
        "AVCHD/CLIP001.MTS"
        (joinPath (destinationDir exEnvPairUp "dest" "AVCHD/CLIPINF/CLIP001.CPI")
          (splitextStem (basename "AVCHD/CLIPINF/CLIP001.CPI") ++ ".m2ts"))) :=
  index_output_path_from_index_file exEnvPairUp "dest" [] ⟨0, 0⟩ "AVCHD/CLIPINF/CLIP001.CPI"
    "AVCHD/CLIP001.MTS" (by decide) (by decide)

theorem stepFile_skip (env : Env) (root : String) (fs : FS) (c : Counters) (f : String)
    (hout : ∀ out, jobOutput env root f = some out → out ∈ fs) :
    stepFile env root (fs, c) f =
      (makedirs fs (destinationDir env root f),
       if (jobOutput env root f).isSome then { c with skipped := c.skipped + 1 } else c) := by
  cases h1 : pyEndsWithAny (pyLower f) imageExts with
  | true =>
    have hjob : jobOutput env root f =
        some (joinPath (destinationDir env root f) (splitextStem (basename f) ++ ".jpg")) := by
      simp [jobOutput, classify_of_image h1]
    rw [stepFile_image_eq env root fs c f h1,
      convert_img_of_mem env _ f _ (mem_makedirs_of_mem (hout _ hjob) _), hjob]
    simp [tally]
  | false =>
    cases h2 : pyEndsWith (pyLower f) ".mts" with
    | true =>
      have hjob : jobOutput env root f =
          some (joinPath (destinationDir env root f) (splitextStem (basename f) ++ ".m2ts")) := by
        simp [jobOutput, classify_of_mts h2]
      rw [stepFile_clip_eq env root fs c f h2,
        convert_vid_of_mem env _ f _ (mem_makedirs_of_mem (hout _ hjob) _), hjob]
      simp [tally]
    | false =>
      cases h3 : pyEndsWith (pyLower f) ".cpi" with
      | true =>
        cases hv : find_associated_video env f with
        | some v =>
          have hjob : jobOutput env root f =
              some (joinPath (destinationDir env root f)
                (splitextStem (basename f) ++ ".m2ts")) := by
            simp [jobOutput, classify_of_cpi h3, hv]
          rw [stepFile_index_some_eq env root fs c f v h3 hv,
            convert_vid_of_mem env _ v _ (mem_makedirs_of_mem (hout _ hjob) _), hjob]
          simp [tally]
        | none =>
          have hjob : jobOutput env root f = none := by
            simp [jobOutput, classify_of_cpi h3, hv]
          rw [stepFile_index_none_eq env root fs c f h3 hv, hjob]
          simp
      | false =>
        have hjob : jobOutput env root f = none := by
          simp [jobOutput, classify_of_none h1 h2 h3]
        rw [stepFile_none_eq env root fs c f h1 h2 h3, hjob]
        simp

theorem countJobs_cons_some {env : Env} {root f : String}
    (h : (jobOutput env root f).isSome = true) (files : List String) :
    countJobs env root (f :: files) = countJobs env root files + 1 := by
  simp [countJobs, List.filter_cons, h]

theorem countJobs_cons_none {env : Env} {root f : String}
    (h : (jobOutput env root f).isSome = false) (files : List String) :
    countJobs env root (f :: files) = countJobs env root files := by
  simp [countJobs, List.filter_cons, h]

theorem foldl_all_exists_aux (env : Env) (root : String) :
    ∀ (files : List String) (fs : FS) (c : Counters),
      (∀ f ∈ files, destinationDir env root f ∈ fs) →
      (∀ f ∈ files, ∀ out, jobOutput env root f = some out → out ∈ fs) →
      List.foldl (stepFile env root) (fs, c) files =
        (fs, ⟨c.processed, c.skipped + countJobs env root files⟩) := by
  intro files
  induction files with
  | nil =>
    intro fs c _ _
    cases c
    simp [countJobs]
  | cons f rest ih =>
    intro fs c hdir hout
    rw [List.foldl_cons, stepFile_skip env root fs c f (hout f (List.mem_cons_self f rest)),
      makedirs_of_mem (hdir f (List.mem_cons_self f rest))]
    cases hj : (jobOutput env root f).isSome with
    | true =>
      simp only [hj, if_true]
      rw [ih fs { c with skipped := c.skipped + 1 }
          (fun g hg => hdir g (List.mem_cons_of_mem f hg))
          (fun g hg => hout g (List.mem_cons_of_mem f hg)),
        countJobs_cons_some hj rest]
      simp only [Prod.mk.injEq, Counters.mk.injEq]
      exact ⟨trivial, trivial, by omega⟩
    | false =>
      rw [if_neg Bool.false_ne_true]
      rw [ih fs c (fun g hg => hdir g (List.mem_cons_of_mem f hg))
          (fun g hg => hout g (List.mem_cons_of_mem f hg)),
        countJobs_cons_none hj rest]

/-- C3: a job whose computed output path already exists is not executed (no
write to the output path occurs) and counts as skipped, not as an error; and a
run over a tree whose every job output (and date folder) already exists
performs zero writes (the filesystem is unchanged) and reports processed
count 0 with every job counted skipped. -/
theorem existing_output_skipped_and_rerun_idempotent (env : Env) (root : String) :
    (∀ (fs : FS) (c : Counters) (f out : String),
        jobOutput env root f = some out → out ∈ fs →
        stepFile env root (fs, c) f =
          (makedirs fs (destinationDir env root f), { c with skipped := c.skipped + 1 })) ∧
    (∀ (files : List String) (fs : FS),
        (∀ f ∈ files, destinationDir env root f ∈ fs) →
        (∀ f ∈ files, ∀ out, jobOutput env root f = some out → out ∈ fs) →
        process_media_files env root files fs = (fs, ⟨0, countJobs env root files⟩)) := by
  constructor
  · intro fs c f out hjob hmem
    rw [stepFile_skip env root fs c f
        (fun o ho => by rw [hjob] at ho; injection ho with h; rw [← h]; exact hmem), hjob]
    rfl
  · intro files fs hdir hout
    have h := foldl_all_exists_aux env root files fs ⟨0, 0⟩ hdir hout
    simpa [process_media_files] using h

/-- Witness for C3: one existing output is skipped; rerunning a two-job list
over its fully processed destination changes nothing and skips both jobs. -/
theorem existing_output_skipped_and_rerun_idempotent_witness :
    stepFile exEnvPlain "dest" (["dest/07-03-2021", "dest/07-03-2021/a.jpg"], ⟨0, 0⟩) "cam/a.jpg" =
      (["dest/07-03-2021", "dest/07-03-2021/a.jpg"], ⟨0, 1⟩) ∧
    process_media_files exEnvPlain "dest" ["cam/a.jpg", "cam/b.mts"]
        ["dest/07-03-2021", "dest/07-03-2021/a.jpg", "dest/07-03-2021/b.m2ts"] =
      (["dest/07-03-2021", "dest/07-03-2021/a.jpg", "dest/07-03-2021/b.m2ts"], ⟨0, 2⟩) := by
  constructor
  · have h := (existing_output_skipped_and_rerun_idempotent exEnvPlain "dest").1
      ["dest/07-03-2021", "dest/07-03-2021/a.jpg"] ⟨0, 0⟩ "cam/a.jpg" "dest/07-03-2021/a.jpg"
      (by decide) (by decide)
    rw [h]
    decide
  · have h := (existing_output_skipped_and_rerun_idempotent exEnvPlain "dest").2
      ["cam/a.jpg", "cam/b.mts"]
      ["dest/07-03-2021", "dest/07-03-2021/a.jpg", "dest/07-03-2021/b.m2ts"]
      (by decide) (by decide)
    rw [h]
    decide

/-- C7: an error raised by the external encoding call is caught inside the
job, the job counts as skipped (nothing is written), and the loop continues
with the remaining files, for each of the three job kinds. -/
theorem encode_error_skips_and_continues (env : Env) (root : String) :
    (∀ (fs : FS) (c : Counters) (p : String) (rest : List String),
      pyEndsWithAny (pyLower p) imageExts = true →
      joinPath (destinationDir env root p) (splitextStem (basename p) ++ ".jpg") ∉
        makedirs fs (destinationDir env root p) →
      env.encodeImgOk p
        (joinPath (destinationDir env root p) (splitextStem (basename p) ++ ".jpg")) = false →
      List.foldl (stepFile env root) ((fs, c) : FS × Counters) (p :: rest) =
        List.foldl (stepFile env root)
          (makedirs fs (destinationDir env root p), { c with skipped := c.skipped + 1 }) rest) ∧
    (∀ (fs : FS) (c : Counters) (p : String) (rest : List String),
      pyEndsWith (pyLower p) ".mts" = true →
      joinPath (destinationDir env root p) (splitextStem (basename p) ++ ".m2ts") ∉
        makedirs fs (destinationDir env root p) →
      env.encodeVidOk p
        (joinPath (destinationDir env root p) (splitextStem (basename p) ++ ".m2ts")) = false →
      List.foldl (stepFile env root) ((fs, c) : FS × Counters) (p :: rest) =
        List.foldl (stepFile env root)
          (makedirs fs (destinationDir env root p), { c with skipped := c.skipped + 1 }) rest) ∧
    (∀ (fs : FS) (c : Counters) (p video_file : String) (rest : List String),
      pyEndsWith (pyLower p) ".cpi" = true →
      find_associated_video env p = some video_file →
      joinPath (destinationDir env root p) (splitextStem (basename p) ++ ".m2ts") ∉
        makedirs fs (destinationDir env root p) →
      env.encodeVidOk video_file
        (joinPath (destinationDir env root p) (splitextStem (basename p) ++ ".m2ts")) = false →
      List.foldl (stepFile env root) ((fs, c) : FS × Counters) (p :: rest) =
        List.foldl (stepFile env root)
          (makedirs fs (destinationDir env root p), { c with skipped := c.skipped + 1 }) rest) := by
  refine ⟨?_, ?_, ?_⟩
  · intro fs c p rest h1 hnm he
    rw [List.foldl_cons, stepFile_image_eq env root fs c p h1,
      convert_img_fail env _ p _ hnm he]
    rfl
  · intro fs c p rest h2 hnm he
    rw [List.foldl_cons, stepFile_clip_eq env root fs c p h2,
      convert_vid_fail env _ p _ hnm he]
    rfl
  · intro fs c p video_file rest h3 hv hnm he
    rw [List.foldl_cons, stepFile_index_some_eq env root fs c p video_file h3 hv,
      convert_vid_fail env _ video_file _ hnm he]
    rfl

/-- Witness for C7: failing encodes on an image and on a paired index file
each count one skip and leave only the date directory behind. -/
theorem encode_error_skips_and_continues_witness :
    List.foldl (stepFile exEnvFail "dest") (([], ⟨0, 0⟩) : FS × Counters) ["cam/a.jpg"] =
      (["dest/07-03-2021"], ⟨0, 1⟩) ∧
    List.foldl (stepFile exEnvFail "dest") (([], ⟨0, 0⟩) : FS × Counters)
        ["cam/CLIPINF/CLIP001.CPI"] =
      (["dest/07-03-2021"], ⟨0, 1⟩) := by
  constructor
  · have h := (encode_error_skips_and_continues exEnvFail "dest").1 [] ⟨0, 0⟩ "cam/a.jpg" []
      (by decide) (by decide) rfl
    rw [h]
    decide
  · have h := (encode_error_skips_and_continues exEnvFail "dest").2.2 [] ⟨0, 0⟩
      "cam/CLIPINF/CLIP001.CPI" "cam/CLIP001.MTS" [] (by decide) (by decide) (by decide) rfl
    rw [h]
    decide

theorem foldl_unrec_aux (env : Env) (root : String) :
    ∀ (files : List String) (fs : FS) (c : Counters),
      (∀ f ∈ files, classify f = .Unrecognized) →
      List.foldl (stepFile env root) (fs, c) files =
        (files.foldl (fun a f => makedirs a (destinationDir env root f)) fs, c) := by
  intro files
  induction files with
  | nil => intro fs c _; simp
  | cons f rest ih =>
    intro fs c hall
    obtain ⟨hi, hm, hc⟩ := conds_of_classify_unrec (hall f (List.mem_cons_self f rest))
    rw [List.foldl_cons, stepFile_none_eq env root fs c f hi hm hc, List.foldl_cons]
    exact ih (makedirs fs (destinationDir env root f)) c
      (fun g hg => hall g (List.mem_cons_of_mem f hg))

theorem mem_foldl_makedirs_mono (env : Env) (root : String) :
    ∀ (files : List String) (fs : FS) (x : String), x ∈ fs →
      x ∈ files.foldl (fun a f => makedirs a (destinationDir env root f)) fs := by
  intro files
  induction files with
  | nil => intro fs x h; simpa using h
  | cons f rest ih =>
    intro fs x h
    rw [List.foldl_cons]
    exact ih _ x (mem_makedirs_of_mem h _)

theorem mem_foldl_makedirs_self (env : Env) (root : String) :
    ∀ (files : List String) (fs : FS) (f : String), f ∈ files →
      destinationDir env root f ∈
        files.foldl (fun a g => makedirs a (destinationDir env root g)) fs := by
  intro files
  induction files with
  | nil => intro fs f h; cases h
  | cons a rest ih =>
    intro fs f h
    rw [List.foldl_cons]
    rcases List.mem_cons.mp h with rfl | h
    · exact mem_foldl_makedirs_mono env root rest _ _ (mem_makedirs_self fs _)
    · exact ih _ f h

/-- C9: for every enumerated file, the resolved date directory is created
(makedirs with exist_ok) before classification, so it is present in the
resulting state whatever the category; in particular a run over only
unrecognized files creates all their date folders and changes no counter. -/
theorem date_dir_created_for_every_file (env : Env) (root : String) :
    (∀ (fs : FS) (c : Counters) (p : String),
        destinationDir env root p ∈ (stepFile env root (fs, c) p).1) ∧
    (∀ (files : List String) (fs : FS),
        (∀ f ∈ files, classify f = .Unrecognized) →
        process_media_files env root files fs =
          (files.foldl (fun a f => makedirs a (destinationDir env root f)) fs, ⟨0, 0⟩) ∧
        ∀ f ∈ files, destinationDir env root f ∈ (process_media_files env root files fs).1) := by
  constructor
  · intro fs c p
    cases h1 : pyEndsWithAny (pyLower p) imageExts with
    | true =>
      rw [stepFile_image_eq env root fs c p h1]
      exact mem_convert_img (mem_makedirs_self fs _)
    | false =>
      cases h2 : pyEndsWith (pyLower p) ".mts" with
      | true =>
        rw [stepFile_clip_eq env root fs c p h2]
        exact mem_convert_vid (mem_makedirs_self fs _)
      | false =>
        cases h3 : pyEndsWith (pyLower p) ".cpi" with
        | true =>
          cases hv : find_associated_video env p with
          | some v =>
            rw [stepFile_index_some_eq env root fs c p v h3 hv]
            exact mem_convert_vid (mem_makedirs_self fs _)
          | none =>
            rw [stepFile_index_none_eq env root fs c p h3 hv]
            exact mem_makedirs_self fs _
        | false =>
          rw [stepFile_none_eq env root fs c p h1 h2 h3]
          exact mem_makedirs_self fs _
  · intro files fs hall
    have heq : process_media_files env root files fs =
        (files.foldl (fun a f => makedirs a (destinationDir env root f)) fs, (⟨0, 0⟩ : Counters)) :=
      foldl_unrec_aux env root files fs ⟨0, 0⟩ hall
    refine ⟨heq, fun f hf => ?_⟩
    rw [heq]
    exact mem_foldl_makedirs_self env root files fs f hf

/-- Witness for C9: a run over two unrecognized files still creates their
(shared) date folder and leaves both counters at zero. -/
theorem date_dir_created_for_every_file_witness :
    destinationDir exEnvPlain "dest" "cam/readme.txt" ∈
      (stepFile exEnvPlain "dest" ([], ⟨0, 0⟩) "cam/readme.txt").1 ∧
    process_media_files exEnvPlain "dest" ["cam/readme.txt", "cam/notes.doc"] [] =
      (["dest/07-03-2021"], ⟨0, 0⟩) := by
  constructor
  · exact (date_dir_created_for_every_file exEnvPlain "dest").1 [] ⟨0, 0⟩ "cam/readme.txt"
  · have h := ((date_dir_created_for_every_file exEnvPlain "dest").2
      ["cam/readme.txt", "cam/notes.doc"] [] (by decide)).1
    rw [h]
    decide

theorem filter_head_none_iff {α : Type} (q : α → Bool) (l : List α) :
    (l.filter q).head? = none ↔ ∀ x ∈ l, q x = false := by
  induction l with
  | nil => simp
  | cons a t ih =>
    cases ha : q a with
    | true => simp [List.filter_cons, ha]
    | false => simp [List.filter_cons, ha, ih]

theorem filter_head_some_iff {α : Type} (q : α → Bool) (l : List α) (x : α) :
    (l.filter q).head? = some x ↔
      ∃ l1 l2, l = l1 ++ x :: l2 ∧ q x = true ∧ ∀ y ∈ l1, q y = false := by
  induction l with
  | nil => simp
  | cons a t ih =>
    cases ha : q a with
    | true =>
      rw [List.filter_cons, if_pos ha, List.head?_cons]
      constructor
      · intro h
        injection h with h
        subst h
        exact ⟨[], t, rfl, ha, by simp⟩
      · rintro ⟨l1, l2, hsplit, hqx, hl1⟩
        cases l1 with
        | nil =>
          injection hsplit with hax _
          rw [hax]
        | cons b l1t =>
          injection hsplit with hab _
          have hb := hl1 b (List.mem_cons_self b l1t)
          rw [← hab, ha] at hb
          cases hb
    | false =>
      rw [List.filter_cons, if_neg (by simp [ha]), ih]
      constructor
      · rintro ⟨l1, l2, hsplit, hqx, hl1⟩
        refine ⟨a :: l1, l2, by rw [hsplit, List.cons_append], hqx, ?_⟩
        intro y hy
        rcases List.mem_cons.mp hy with rfl | hy
        · exact ha
        · exact hl1 y hy
      · rintro ⟨l1, l2, hsplit, hqx, hl1⟩
        cases l1 with
        | nil =>
          injection hsplit with hax htl
          rw [hax] at ha
          rw [hqx] at ha
          cases ha
        | cons b l1t =>
          injection hsplit with hab htl
          exact ⟨l1t, l2, htl, hqx, fun y hy => hl1 y (List.mem_cons_of_mem b hy)⟩

/-- C4 is refuted as stated: for the index file AVCHD/CLIPINF/clip001.cpi,
the base name obtained by stripping the index extension is clip001 and the
parent-of-parent directory AVCHD holds the clip clip001.MTS, whose name starts
with that base and carries the clip extension, yet the pairer returns none
(the case-sensitive replace of '.CPI' does not strip a lower-case '.cpi');
moreover with two matches listed out of lexicographic order the pairer returns
the listing-first match CLIP001B, not the lexicographic first CLIP001A. -/
theorem find_associated_video_cex :
    classify "AVCHD/CLIPINF/clip001.cpi" = .VideoIndex ∧
    splitextStem (basename "AVCHD/CLIPINF/clip001.cpi") = "clip001" ∧
    dirname (dirname "AVCHD/CLIPINF/clip001.cpi") = "AVCHD" ∧
    exEnvPair.listing "AVCHD" = ["clip001.MTS"] ∧
    pyStartsWith "clip001.MTS" "clip001" = true ∧
    pyEndsWith "clip001.MTS" ".MTS" = true ∧
    find_associated_video exEnvPair "AVCHD/CLIPINF/clip001.cpi" = none ∧
    exEnvPairOrd.listing (dirname (dirname "AVCHD/CLIPINF/CLIP001.CPI")) =
      ["CLIP001B.MTS", "CLIP001A.MTS"] ∧
    globMatchMTS "CLIP001" "CLIP001A.MTS" = true ∧
    find_associated_video exEnvPairOrd "AVCHD/CLIPINF/CLIP001.CPI" =
      some "AVCHD/CLIP001B.MTS" ∧
    "AVCHD/CLIP001B.MTS" ≠ "AVCHD/CLIP001A.MTS" := by
  decide

/-- C4 (amended): the pairer derives the clip base name by removing every
occurrence of the case-sensitive substring '.CPI' from the index file's
basename (a lower-case '.cpi' extension is therefore not stripped), and
returns the parent-of-parent directory joined with the first entry of that
directory's listing, in listing order (not necessarily lexicographic), whose
name matches the pattern base*.MTS case-sensitively, or none when no entry
matches. -/
theorem find_associated_video_characterization (env : Env) (cpi_file : String) :
    (∀ v, find_associated_video env cpi_file = some v ↔
      ∃ l1 name l2,
        env.listing (dirname (dirname cpi_file)) = l1 ++ name :: l2 ∧
        globMatchMTS (pyReplace (basename cpi_file) ".CPI" "") name = true ∧
        (∀ n ∈ l1, globMatchMTS (pyReplace (basename cpi_file) ".CPI" "") n = false) ∧
        v = joinPath (dirname (dirname cpi_file)) name) ∧
    (find_associated_video env cpi_file = none ↔
      ∀ n ∈ env.listing (dirname (dirname cpi_file)),
        globMatchMTS (pyReplace (basename cpi_file) ".CPI" "") n = false) := by
  constructor
  · intro v
    unfold find_associated_video
    rw [List.head?_map]
    constructor
    · intro h
      cases hh : ((env.listing (dirname (dirname cpi_file))).filter
          (globMatchMTS (pyReplace (basename cpi_file) ".CPI" ""))).head? with
      | none => rw [hh] at h; cases h
      | some name =>
        rw [hh] at h
        injection h with h
        rcases (filter_head_some_iff _ _ name).mp hh with ⟨l1, l2, hs, hq, hl1⟩
        exact ⟨l1, name, l2, hs, hq, hl1, h.symm⟩
    · rintro ⟨l1, name, l2, hs, hq, hl1, rfl⟩
      rw [(filter_head_some_iff _ _ name).mpr ⟨l1, l2, hs, hq, hl1⟩]
      rfl
  · unfold find_associated_video
    rw [List.head?_map]
    constructor
    · intro h
      cases hh : ((env.listing (dirname (dirname cpi_file))).filter
          (globMatchMTS (pyReplace (basename cpi_file) ".CPI" ""))).head? with
      | none => exact (filter_head_none_iff _ _).mp hh
      | some name => rw [hh] at h; cases h
    · intro h
      rw [(filter_head_none_iff _ _).mpr h]
      rfl

/-- Witness for C4 (amended): the first listing-order match is returned,
skipping a non-matching entry listed before it. -/
theorem find_associated_video_characterization_witness :
    find_associated_video exEnvPairUp "AVCHD/CLIPINF/CLIP001.CPI" = some "AVCHD/CLIP001.MTS" :=
  ((find_associated_video_characterization exEnvPairUp "AVCHD/CLIPINF/CLIP001.CPI").1
      "AVCHD/CLIP001.MTS").mpr
    ⟨["notes.txt"], "CLIP001.MTS", ["CLIP001A.MTS"], by decide, by decide,
      by decide, by decide⟩

end Sonex
